import Mathlib

/-!
Shallow embedding of `src/docs/get_weather/get_weather.py` and of the parts of
the Python standard library / `requests` library it exercises (JSON
encoding/decoding, dict subscripting, `raise_for_status`).  Machine text is
modelled as Lean `String`/`List Char`; JSON numbers occurring in this program
are integers and are modelled as `Int`.
-/

namespace GetWeather

/-- A JSON value, as produced by `json.loads` / consumed by `json.dumps`.
The program only ever deals with integer numbers, so numbers are `Int`. -/
inductive Json where
  | null
  | bool (b : Bool)
  | num (n : Int)
  | str (s : String)
  | arr (elems : List Json)
  | obj (fields : List (String × Json))
deriving Repr, Inhabited

/-- Python exceptions relevant to this program. -/
inductive PyExn where
  | typeError (msg : String)
  | keyError (k : String)
deriving Repr, DecidableEq

/-- A Python value as far as the `isinstance(location, str)` check cares:
the argument handed to `search_weather` may be any Python object. -/
inductive PyVal where
  | str (s : String)
  | int (n : Int)
  | noneV
  | boolV (b : Bool)
  | list (elems : List PyVal)
deriving Repr

/-- `isinstance(v, str)` -/
def PyVal.isStr : PyVal → Bool
  | .str _ => true
  | _ => false

/-- First-match association lookup, the dict lookup order of a Python dict
modelled as an ordered field list. -/
def objLookup : List (String × Json) → String → Option Json
  | [], _ => none
  | (k, v) :: rest, key => if k = key then some v else objLookup rest key

/-- `d[k]` when `d` is a JSON object and the key is present; `none` otherwise. -/
def getKey : Json → String → Option Json
  | .obj fields, k => objLookup fields k
  | _, _ => none

/-- Python subscript `d[k]`: `KeyError` on a dict without the key,
`TypeError` on a non-dict. -/
def pySub (d : Json) (k : String) : Except PyExn Json :=
  match d with
  | .obj fields =>
      match objLookup fields k with
      | some v => Except.ok v
      | none => Except.error (PyExn.keyError k)
  | _ => Except.error (PyExn.typeError "object is not subscriptable")

/-- `data[k1][k2]` evaluated as Python does, exceptions propagating. -/
def pathEval (d : Json) (k1 k2 : String) : Except PyExn Json :=
  pySub d k1 >>= fun m => pySub m k2

/-- Embedding of `extract_weather_info` (get_weather.py lines 57-78): builds
the five-key summary dict, each value by direct nested subscripting, in the
evaluation order of the Python dict display. -/
def extract_weather_info (data : Json) : Except PyExn Json := do
  let name ← pySub data "location" >>= fun l => pySub l "name"
  let region ← pySub data "location" >>= fun l => pySub l "region"
  let local_time ← pySub data "location" >>= fun l => pySub l "localtime"
  let temperature ← pySub data "current" >>= fun c => pySub c "temperature"
  let feels_like ← pySub data "current" >>= fun c => pySub c "feelslike"
  pure (Json.obj
    [("name", name), ("region", region), ("local_time", local_time),
     ("temperature", temperature), ("feels_like", feels_like)])

/-! ### JSON text: the pieces of `json.dumps` / `json.loads` this program uses

`json.dumps(v, indent=4)` (ASCII mode, the default) and strict `json.loads`
are embedded over `List Char`.  JSON numbers are integers in this program, so
the number grammar is embedded for integers and the parser rejects the float
forms (`.`, `e`, `E`), which never arise here. -/

/-- The whitespace characters `json.loads` skips between tokens. -/
def isWs (c : Char) : Bool := c = ' ' || c = '\t' || c = '\n' || c = '\r'

/-- Drop leading JSON whitespace. -/
def skipWs : List Char → List Char
  | [] => []
  | c :: rest => if isWs c then skipWs rest else c :: rest

def isDigit (c : Char) : Bool := '0' ≤ c && c ≤ '9'

/-- The longest leading run of decimal digits, and the remainder. -/
def takeDigits : List Char → List Char × List Char
  | [] => ([], [])
  | c :: rest =>
    if isDigit c then
      let p := takeDigits rest
      (c :: p.1, p.2)
    else ([], c :: rest)

/-- Numeric value of a digit string, accumulator style. -/
def digitsValAux : Nat → List Char → Nat
  | a, [] => a
  | a, c :: rest => digitsValAux (10 * a + (c.toNat - 48)) rest

def digitsVal (l : List Char) : Nat := digitsValAux 0 l

/-- The decimal digit character for `d < 10`. -/
def digitChar : Nat → Char
  | 0 => '0' | 1 => '1' | 2 => '2' | 3 => '3' | 4 => '4'
  | 5 => '5' | 6 => '6' | 7 => '7' | 8 => '8' | _ => '9'

/-- Decimal digits, most significant first; `fuel` bounds the recursion
depth (any `fuel > n` is exact). -/
def natToCharsAux : Nat → Nat → List Char
  | 0, _ => []
  | fuel + 1, n =>
    if n < 10 then [digitChar n]
    else natToCharsAux fuel (n / 10) ++ [digitChar (n % 10)]

/-- Decimal digits of `n`, most significant first (no leading zeros). -/
def natToChars (n : Nat) : List Char := natToCharsAux (n + 1) n

/-- Decimal rendering of an integer, as Python `str`/`json.dumps` print it. -/
def intToChars (n : Int) : List Char :=
  if n < 0 then '-' :: natToChars n.natAbs else natToChars n.natAbs

/-- Lowercase hexadecimal digit, as in `json.dumps`'s `\uXXXX` escapes. -/
def hexDigitChar : Nat → Char
  | 0 => '0' | 1 => '1' | 2 => '2' | 3 => '3' | 4 => '4'
  | 5 => '5' | 6 => '6' | 7 => '7' | 8 => '8' | 9 => '9'
  | 10 => 'a' | 11 => 'b' | 12 => 'c' | 13 => 'd' | 14 => 'e' | _ => 'f'

/-- Four lowercase hex digits of `n < 0x10000`. -/
def hex4Chars (n : Nat) : List Char :=
  [hexDigitChar (n / 4096 % 16), hexDigitChar (n / 256 % 16),
   hexDigitChar (n / 16 % 16), hexDigitChar (n % 16)]

/-- `json.dumps` ASCII escaping of one character: short escapes for the
common controls, `\uXXXX` (with a surrogate pair above the BMP) for every
other character outside printable ASCII. -/
def escapeChar (c : Char) : List Char :=
  if c = '"' then ['\\', '"']
  else if c = '\\' then ['\\', '\\']
  else if c = '\n' then ['\\', 'n']
  else if c = '\r' then ['\\', 'r']
  else if c = '\t' then ['\\', 't']
  else if c.toNat = 8 then ['\\', 'b']
  else if c.toNat = 12 then ['\\', 'f']
  else if c.toNat < 32 || 126 < c.toNat then
    if c.toNat < 65536 then '\\' :: 'u' :: hex4Chars c.toNat
    else
      ('\\' :: 'u' :: hex4Chars (55296 + (c.toNat - 65536) / 1024)) ++
      ('\\' :: 'u' :: hex4Chars (56320 + (c.toNat - 65536) % 1024))
  else [c]

def escapeString : List Char → List Char
  | [] => []
  | c :: rest => escapeChar c ++ escapeString rest

/-- A JSON string literal: quote, escaped content, quote. -/
def quoteString (s : String) : List Char := '"' :: (escapeString s.data ++ ['"'])

/-- The newline-plus-indentation `json.dumps(…, indent=4)` writes before an
item at nesting depth `d`. -/
def nlIndent (d : Nat) : List Char := '\n' :: List.replicate (4 * d) ' '

mutual

/-- Embedding of `json.dumps(v, indent=4)` at nesting depth `d`
(the call in `inspect_response`, get_weather.py line 91).  With `indent` set,
the item separator is `","` followed by a newline and indentation, and the
key separator is `": "`. -/
def dumpsI : Nat → Json → List Char
  | _, .null => ['n', 'u', 'l', 'l']
  | _, .bool true => ['t', 'r', 'u', 'e']
  | _, .bool false => ['f', 'a', 'l', 's', 'e']
  | _, .num n => intToChars n
  | _, .str s => quoteString s
  | _, .arr [] => ['[', ']']
  | d, .arr (v :: vs) =>
      '[' :: (nlIndent (d + 1) ++ dumpsI (d + 1) v ++ dumpsElems (d + 1) vs ++
        nlIndent d ++ [']'])
  | _, .obj [] => ['\x7b', '\x7d']
  | d, .obj (f :: fs) =>
      '\x7b' :: (nlIndent (d + 1) ++ dumpsField (d + 1) f ++ dumpsFields (d + 1) fs ++
        nlIndent d ++ ['\x7d'])

/-- The remaining array items, each preceded by `,` and fresh-line indent. -/
def dumpsElems : Nat → List Json → List Char
  | _, [] => []
  | d, v :: vs => ',' :: (nlIndent d ++ dumpsI d v ++ dumpsElems d vs)

/-- One object entry: quoted key, `": "`, value. -/
def dumpsField : Nat → String × Json → List Char
  | d, (k, v) => quoteString k ++ ':' :: ' ' :: dumpsI d v

/-- The remaining object entries, each preceded by `,` and fresh-line indent. -/
def dumpsFields : Nat → List (String × Json) → List Char
  | _, [] => []
  | d, f :: fs => ',' :: (nlIndent d ++ dumpsField d f ++ dumpsFields d fs)

end

/-- Hex digit value, as `json.loads` accepts it (both cases). -/
def hexVal (c : Char) : Option Nat :=
  if '0' ≤ c && c ≤ '9' then some (c.toNat - 48)
  else if 'a' ≤ c && c ≤ 'f' then some (c.toNat - 87)
  else if 'A' ≤ c && c ≤ 'F' then some (c.toNat - 55)
  else none

/-- Four hex digits, as `_decode_uXXXX` reads them. -/
def parseHex4 : List Char → Option (Nat × List Char)
  | c1 :: c2 :: c3 :: c4 :: rest =>
    (hexVal c1).bind fun d1 => (hexVal c2).bind fun d2 =>
      (hexVal c3).bind fun d3 => (hexVal c4).bind fun d4 =>
        some (d1 * 4096 + d2 * 256 + d3 * 16 + d4, rest)
  | _ => none

/-- The text after `\u`: one BMP scalar, or a surrogate pair combined into
one astral scalar.  Python `str` tolerates lone surrogates; Lean `Char`
cannot represent them, so lone-surrogate escapes (which `json.dumps` never
produces) are rejected instead. -/
def parseUEsc (r1 : List Char) : Option (Char × List Char) :=
  (parseHex4 r1).bind fun p =>
    if 55296 ≤ p.1 && p.1 < 56320 then
      match p.2 with
      | '\\' :: 'u' :: r3 =>
        (parseHex4 r3).bind fun q =>
          if 56320 ≤ q.1 && q.1 < 57344 then
            some (Char.ofNat (65536 + (p.1 - 55296) * 1024 + (q.1 - 56320)), q.2)
          else none
      | _ => none
    else if 56320 ≤ p.1 && p.1 < 57344 then none
    else some (Char.ofNat p.1, p.2)

/-- The `BACKSLASH` table of `json.decoder`. -/
def parseEscChar (e : Char) : Option Char :=
  if e = '"' then some '"'
  else if e = '\\' then some '\\'
  else if e = '/' then some '/'
  else if e = 'b' then some (Char.ofNat 8)
  else if e = 'f' then some (Char.ofNat 12)
  else if e = 'n' then some '\n'
  else if e = 'r' then some '\r'
  else if e = 't' then some '\t'
  else none

/-- Body of a JSON string literal after the opening quote, strict mode:
returns the decoded characters and the input after the closing quote.  The
fuel bounds recursion depth; each step consumes at least one input
character, so any `fuel > ` number of decoded characters is exact. -/
def parseStrBody : Nat → List Char → Option (List Char × List Char)
  | 0, _ => none
  | _, [] => none
  | _ + 1, '"' :: rest => some ([], rest)
  | _ + 1, ['\\'] => none
  | fuel + 1, '\\' :: e :: r1 =>
    if e = 'u' then
      (parseUEsc r1).bind fun u =>
        (parseStrBody fuel u.2).map fun p => (u.1 :: p.1, p.2)
    else
      (parseEscChar e).bind fun ch =>
        (parseStrBody fuel r1).map fun p => (ch :: p.1, p.2)
  | fuel + 1, c :: rest =>
    if c.toNat < 32 then none
    else (parseStrBody fuel rest).map fun p => (c :: p.1, p.2)

/-- After an integer literal, strict JSON would continue a float with `.`,
`e` or `E`; floats are outside this embedding, so such continuations (which
never follow output of the integer-only serializer) are rejected. -/
def intStop (r : List Char) : Bool :=
  match r with
  | [] => true
  | c :: _ => !(isDigit c || c = '.' || c = 'e' || c = 'E')

/-- The integer after an optional sign: `0`, or a nonzero digit followed by
more digits, as the `NUMBER_RE` scanner matches it. -/
def parseNumTail (input : List Char) : Option (Nat × List Char) :=
  match input with
  | [] => none
  | c :: rest =>
    if c = '0' then
      if intStop rest then some (0, rest) else none
    else if isDigit c then
      let p := takeDigits rest
      if intStop p.2 then some (digitsVal (c :: p.1), p.2) else none
    else none

/-- A JSON integer literal. -/
def parseNum (input : List Char) : Option (Int × List Char) :=
  match input with
  | [] => none
  | c :: rest =>
    if c = '-' then (parseNumTail rest).map fun p => (-(p.1 : Int), p.2)
    else (parseNumTail input).map fun p => ((p.1 : Int), p.2)

mutual

/-- One JSON value, fuel-bounded recursive descent mirroring the `json`
scanner: dispatch on the first character; no leading whitespace is skipped
(callers do that, as in `json.decoder`). -/
def parseVal : Nat → List Char → Option (Json × List Char)
  | 0, _ => none
  | f + 1, input =>
    match input with
    | [] => none
    | c :: rest =>
      if c = '"' then (parseStrBody (f + 1) rest).map fun p => (Json.str (String.mk p.1), p.2)
      else if c = '\x7b' then
        match skipWs rest with
        | '\x7d' :: r2 => some (Json.obj [], r2)
        | r2 => (parseFields f r2).map fun p => (Json.obj p.1, p.2)
      else if c = '[' then
        match skipWs rest with
        | ']' :: r2 => some (Json.arr [], r2)
        | r2 => (parseElems f r2).map fun p => (Json.arr p.1, p.2)
      else if c = 't' then
        match rest with
        | 'r' :: 'u' :: 'e' :: r2 => some (Json.bool true, r2)
        | _ => none
      else if c = 'f' then
        match rest with
        | 'a' :: 'l' :: 's' :: 'e' :: r2 => some (Json.bool false, r2)
        | _ => none
      else if c = 'n' then
        match rest with
        | 'u' :: 'l' :: 'l' :: r2 => some (Json.null, r2)
        | _ => none
      else if c = '-' || isDigit c then (parseNum input).map fun p => (Json.num p.1, p.2)
      else none

/-- Array items after `[` (whitespace already skipped, not the empty-array
case): value, then `,` and more items or the closing `]`. -/
def parseElems : Nat → List Char → Option (List Json × List Char)
  | 0, _ => none
  | f + 1, input => do
    let p ← parseVal f input
    match skipWs p.2 with
    | ',' :: r2 => do
        let q ← parseElems f (skipWs r2)
        pure (p.1 :: q.1, q.2)
    | ']' :: r2 => pure ([p.1], r2)
    | _ => none

/-- Object entries after `\x7b` (whitespace already skipped, not the
empty-object case): quoted key, `:`, value, then `,` and more entries or the
closing brace. -/
def parseFields : Nat → List Char → Option (List (String × Json) × List Char)
  | 0, _ => none
  | f + 1, input =>
    match input with
    | '"' :: rest => do
      let kp ← parseStrBody (f + 1) rest
      match skipWs kp.2 with
      | ':' :: r2 => do
        let vp ← parseVal f (skipWs r2)
        match skipWs vp.2 with
        | ',' :: r4 => do
            let q ← parseFields f (skipWs r4)
            pure ((String.mk kp.1, vp.1) :: q.1, q.2)
        | '\x7d' :: r4 => pure ([(String.mk kp.1, vp.1)], r4)
        | _ => none
      | _ => none
    | _ => none

end

/-- Embedding of strict `json.loads` (as `response.json()` calls it): skip
leading whitespace, read one value, skip trailing whitespace, demand the
end of input.  The fuel `length + 1` is enough for any input the value
grammar accepts, since every recursive step follows at least one consumed
character. -/
def json_loads (s : String) : Option Json :=
  let l := skipWs s.data
  match parseVal (l.length + 1) l with
  | some (v, rest) => if skipWs rest = [] then some v else none
  | none => none

/-- Embedding of `inspect_response` (get_weather.py lines 81-92):
`json.dumps(weather_response, indent=4)`. -/
def inspect_response (weather_response : Json) : String :=
  String.mk (dumpsI 0 weather_response)

/-! ### The fetch operation and the script body -/

/-- The output streams of the process. -/
inductive StreamId where
  | stdout
  | stderr
deriving Repr, DecidableEq

/-- Observable effects of a run: the one HTTP request, and writes.  Python's
`print(...)` writes to standard output. -/
inductive Event where
  | netCall (url : String)
  | write (stream : StreamId) (text : String)
deriving Repr, DecidableEq

/-- The final HTTP response `requests.get` yields. -/
structure HttpResponse where
  statusCode : Nat
  reason : String
  body : String
deriving Repr

/-- What the network does for a given URL: a response, or a transport-level
exception raised inside `requests.get`. -/
inductive FetchResult where
  | response (r : HttpResponse)
  | exn (msg : String)

/-- Embedding of `load_environment` (get_weather.py lines 10-20): after
`load_dotenv()`, `os.getenv("WEATHER_API")` is the variable's value when set
and `None` otherwise; the process environment is the `Option String`
argument. -/
def load_environment (env : Option String) : Option String := env

/-- Python f-string interpolation of an `Optional[str]`: `str(None)` is the
text `None`. -/
def pyStrOfOpt : Option String → String
  | none => "None"
  | some s => s

/-- The request URL built at get_weather.py line 43. -/
def buildURL (location : String) (key : Option String) : String :=
  "https://api.weatherstack.com/current?query=" ++ location ++ "&access_key=" ++
    pyStrOfOpt key

/-- The statuses for which `Response.raise_for_status` raises `HTTPError`:
4xx and 5xx only. -/
def isErrorStatus (status : Nat) : Bool := 400 ≤ status && status < 600

/-- The `HTTPError` text `raise_for_status` builds. -/
def httpErrorText (r : HttpResponse) (url : String) : String :=
  if r.statusCode < 500 then
    toString r.statusCode ++ " Client Error: " ++ r.reason ++ " for url: " ++ url
  else
    toString r.statusCode ++ " Server Error: " ++ r.reason ++ " for url: " ++ url

/-- The `JSONDecodeError` text raised by `response.json()` on an
undecodable body.  Its exact wording is position-dependent and never
observed by this program beyond being printed; it is kept abstract in the
body. -/
def jsonDecodeErrMsg (body : String) : String :=
  "Expecting value: " ++ body

/-- Embedding of `search_weather` (get_weather.py lines 23-54).
`location` is any Python value (the `isinstance` check is first), `env` the
process environment, `net` the behavior of `requests.get`.  Returns the
Python result (value or uncaught exception) together with the trace of
observable events. -/
def search_weather (location : PyVal) (env : Option String)
    (net : String → FetchResult) : Except PyExn Json × List Event :=
  match location with
  | .str loc =>
    let KEY := load_environment env
    let URL := buildURL loc KEY
    match net URL with
    | .exn msg =>
        (Except.ok (Json.obj []),
         [Event.netCall URL,
          Event.write .stdout ("Other error occurred: " ++ msg)])
    | .response r =>
        if isErrorStatus r.statusCode then
          (Except.ok (Json.obj []),
           [Event.netCall URL,
            Event.write .stdout ("HTTP error occurred: " ++ httpErrorText r URL)])
        else
          match json_loads r.body with
          | some v => (Except.ok v, [Event.netCall URL])
          | none =>
              (Except.ok (Json.obj []),
               [Event.netCall URL,
                Event.write .stdout
                  ("Other error occurred: " ++ jsonDecodeErrMsg r.body)])
  | _ => (Except.error (PyExn.typeError "Input must be a string."), [])

/-- Python `repr` of a JSON-shaped value (used by `str` on containers).
Modelled for ASCII content: characters at or above `0x80` are kept verbatim
(CPython consults Unicode printability tables there, outside this scope). -/
def pyReprEscape (q : Char) : List Char → List Char
  | [] => []
  | c :: rest =>
    (if c = '\\' then ['\\', '\\']
     else if c = q then ['\\', q]
     else if c = '\n' then ['\\', 'n']
     else if c = '\r' then ['\\', 'r']
     else if c = '\t' then ['\\', 't']
     else if c.toNat < 32 || c.toNat = 127 then
       ['\\', 'x', hexDigitChar (c.toNat / 16), hexDigitChar (c.toNat % 16)]
     else [c]) ++ pyReprEscape q rest

mutual

/-- Python `repr` on the values of the JSON model. -/
def pyRepr : Json → String
  | .null => "None"
  | .bool true => "True"
  | .bool false => "False"
  | .num n => String.mk (intToChars n)
  | .str s =>
      let q : Char := if s.contains '\'' && !(s.contains '"') then '"' else '\''
      String.mk (q :: (pyReprEscape q s.data ++ [q]))
  | .arr l => "[" ++ pyReprList l ++ "]"
  | .obj fs => "\x7b" ++ pyReprFields fs ++ "\x7d"

def pyReprList : List Json → String
  | [] => ""
  | [v] => pyRepr v
  | v :: vs => pyRepr v ++ ", " ++ pyReprList vs

def pyReprFields : List (String × Json) → String
  | [] => ""
  | [(k, v)] => pyRepr (Json.str k) ++ ": " ++ pyRepr v
  | (k, v) :: fs => pyRepr (Json.str k) ++ ": " ++ pyRepr v ++ ", " ++ pyReprFields fs

end

/-- Python `str` as an f-string applies it: identity on strings, and equal
to `repr` on every other value. -/
def pyStr : Json → String
  | .str s => s
  | .null => "None"
  | .bool true => "True"
  | .bool false => "False"
  | .num n => String.mk (intToChars n)
  | v => pyRepr v

/-- The f-string printed at get_weather.py lines 101-103, with its
subscripts evaluated in order of appearance. -/
def sentenceText (weather_summary : Json) : Except PyExn String := do
  let n ← pySub weather_summary "name"
  let t ← pySub weather_summary "temperature"
  let fl ← pySub weather_summary "feels_like"
  pure ("The temperature in " ++ pyStr n ++ " is " ++ pyStr t ++
    " degrees Celcius and feels like " ++ pyStr fl ++ " degrees.")

/-- Embedding of the module body (get_weather.py lines 95-103): fetch for
the hard-coded location, print the formatted raw response, extract the
summary, print the sentence.  An uncaught exception stops the run. -/
def script (env : Option String) (net : String → FetchResult) :
    Except PyExn Unit × List Event :=
  match search_weather (.str "Athens") env net with
  | (.error e, evs) => (.error e, evs)
  | (.ok weather_data, evs) =>
    let evs := evs ++ [Event.write .stdout (inspect_response weather_data)]
    match extract_weather_info weather_data with
    | .error e => (.error e, evs)
    | .ok weather_summary =>
      match sentenceText weather_summary with
      | .error e => (.error e, evs)
      | .ok line => (.ok (), evs ++ [Event.write .stdout line])

/-- The texts written to stream `s`, in order. -/
def writesTo (s : StreamId) : List Event → List String
  | [] => []
  | Event.write s2 t :: rest => if s2 = s then t :: writesTo s rest else writesTo s rest
  | Event.netCall _ :: rest => writesTo s rest

/-! ### Shapes and fixtures used by the statements -/

/-- Is the value a JSON object (a Python dict)? -/
def isObjB : Json → Bool
  | .obj _ => true
  | _ => false

/-- The value at key `k`, if present, is itself an object (so that nested
subscripting fails by key lookup, not by non-subscriptability). -/
def subShapeOk (d : Json) (k : String) : Bool :=
  match getKey d k with
  | none => true
  | some (.obj _) => true
  | some _ => false

/-- Both keys of the two-level path resolve. -/
def hasField2 (d : Json) (k1 k2 : String) : Bool :=
  ((getKey d k1).bind fun m => getKey m k2).isSome

/-- All five source fields of the extractor are present. -/
def hasAllFive (d : Json) : Bool :=
  hasField2 d "location" "name" && hasField2 d "location" "region" &&
  hasField2 d "location" "localtime" && hasField2 d "current" "temperature" &&
  hasField2 d "current" "feelslike"

/-- The raw mapping of the end-to-end scenario (§8 of the spec). -/
def mockedRaw : Json :=
  Json.obj
    [("location", Json.obj
        [("name", Json.str "Athens"), ("region", Json.str "Attica"),
         ("localtime", Json.str "t")]),
     ("current", Json.obj
        [("temperature", Json.num 20), ("feelslike", Json.num 19)])]

/-- A JSON body decoding to `mockedRaw`. -/
def mockedBody : String :=
  "\x7b\"location\": \x7b\"name\": \"Athens\", \"region\": \"Attica\", \"localtime\": \"t\"\x7d, \"current\": \x7b\"temperature\": 20, \"feelslike\": 19\x7d\x7d"

/-- A network returning `mockedRaw` with status 200 for every URL. -/
def mockedNet : String → FetchResult :=
  fun _ => .response ⟨200, "OK", mockedBody⟩

/-- The raw mapping of §8's extractor scenario. -/
def athensRaw : Json :=
  Json.obj
    [("location", Json.obj
        [("name", Json.str "Athens"), ("region", Json.str "Attica"),
         ("localtime", Json.str "2024-01-01 10:00")]),
     ("current", Json.obj
        [("temperature", Json.num 15), ("feelslike", Json.num 13)])]

/-- `athensRaw` with extra keys at every level, agreeing with it on the five
source fields. -/
def athensRawExtra : Json :=
  Json.obj
    [("request", Json.str "q"),
     ("location", Json.obj
        [("name", Json.str "Athens"), ("region", Json.str "Attica"),
         ("localtime", Json.str "2024-01-01 10:00"),
         ("utc_offset", Json.str "2.0")]),
     ("current", Json.obj
        [("temperature", Json.num 15), ("humidity", Json.num 40),
         ("feelslike", Json.num 13)])]

/-- Whitespace-only text. -/
def wsOnly (l : List Char) : Prop := ∀ c ∈ l, isWs c = true

/-! ### Round-trip lemmas: `json_loads` inverts `json.dumps(…, indent=4)` -/

theorem eq_of_isWs {c : Char} (h : isWs c = true) :
    c = ' ' ∨ c = '\t' ∨ c = '\n' ∨ c = '\r' := by
  simpa [isWs, or_assoc] using h

theorem skipWs_cons_of_not_ws {c : Char} (h : isWs c = false) (l : List Char) :
    skipWs (c :: l) = c :: l := by
  simp [skipWs, h]

theorem skipWs_append_of_wsOnly {ws : List Char} (h : wsOnly ws) (l : List Char) :
    skipWs (ws ++ l) = skipWs l := by
  induction ws with
  | nil => rfl
  | cons c t ih =>
    have hc : isWs c = true := h c (List.mem_cons_self c t)
    have ht : wsOnly t := fun x hx => h x (List.mem_cons_of_mem c hx)
    simp [skipWs, hc, ih ht]

theorem wsOnly_nlIndent (d : Nat) : wsOnly (nlIndent d) := by
  intro c hc
  rcases List.mem_cons.mp hc with h | h
  · subst h; rfl
  · rw [List.eq_of_mem_replicate h]; rfl

theorem isWs_false_of_isDigit {c : Char} (h : isDigit c = true) : isWs c = false := by
  rcases Bool.eq_false_or_eq_true (isWs c) with ht | hf
  · rcases eq_of_isWs ht with h' | h' | h' | h' <;> subst h' <;> exact absurd h (by decide)
  · exact hf

theorem intStop_cons {c : Char} (t : List Char)
    (h : c = ',' ∨ c = ']' ∨ c = '\x7d' ∨ isWs c = true) : intStop (c :: t) = true := by
  rcases h with h | h | h | h
  · subst h; rfl
  · subst h; rfl
  · subst h; rfl
  · rcases eq_of_isWs h with h' | h' | h' | h' <;> subst h' <;> rfl

theorem intStop_elems_tail (d : Nat) (vs : List Json) (ws rest : List Char)
    (hws : wsOnly ws) :
    intStop (dumpsElems d vs ++ (ws ++ (']' :: rest))) = true := by
  cases vs with
  | cons v vs' => exact intStop_cons _ (Or.inl rfl)
  | nil =>
    cases ws with
    | nil => exact intStop_cons _ (Or.inr (Or.inl rfl))
    | cons w ws' =>
      exact intStop_cons _ (Or.inr (Or.inr (Or.inr (hws w (List.mem_cons_self w ws')))))

theorem intStop_fields_tail (d : Nat) (fs : List (String × Json)) (ws rest : List Char)
    (hws : wsOnly ws) :
    intStop (dumpsFields d fs ++ (ws ++ ('\x7d' :: rest))) = true := by
  cases fs with
  | cons f fs' => exact intStop_cons _ (Or.inl rfl)
  | nil =>
    cases ws with
    | nil => exact intStop_cons _ (Or.inr (Or.inr (Or.inl rfl)))
    | cons w ws' =>
      exact intStop_cons _ (Or.inr (Or.inr (Or.inr (hws w (List.mem_cons_self w ws')))))

theorem digitChar_isDigit : ∀ d, d < 10 → isDigit (digitChar d) = true := by decide

theorem digitChar_ne_zero : ∀ d, d < 10 → 1 ≤ d → digitChar d ≠ '0' := by decide

theorem digitChar_toNat : ∀ d, d < 10 → (digitChar d).toNat = 48 + d := by decide

theorem natToCharsAux_digits :
    ∀ fuel n, n < fuel → ∀ c ∈ natToCharsAux fuel n, isDigit c = true := by
  intro fuel
  induction fuel with
  | zero => intro n h; omega
  | succ f ih =>
    intro n _ c hc
    rw [natToCharsAux] at hc
    by_cases h10 : n < 10
    · rw [if_pos h10] at hc
      rcases List.mem_singleton.mp hc with rfl
      exact digitChar_isDigit n h10
    · rw [if_neg h10] at hc
      rcases List.mem_append.mp hc with hc' | hc'
      · exact ih (n / 10) (by omega) c hc'
      · rcases List.mem_singleton.mp hc' with rfl
        exact digitChar_isDigit (n % 10) (by omega)

theorem natToCharsAux_head :
    ∀ fuel n, n < fuel →
      ∃ c t, natToCharsAux fuel n = c :: t ∧ isDigit c = true ∧ (1 ≤ n → c ≠ '0') := by
  intro fuel
  induction fuel with
  | zero => intro n h; omega
  | succ f ih =>
    intro n hn
    rw [natToCharsAux]
    by_cases h10 : n < 10
    · rw [if_pos h10]
      exact ⟨digitChar n, [], rfl, digitChar_isDigit n h10,
        fun h1 => digitChar_ne_zero n h10 h1⟩
    · rw [if_neg h10]
      obtain ⟨c, t, hct, hd, hz⟩ := ih (n / 10) (by omega)
      refine ⟨c, t ++ [digitChar (n % 10)], by rw [hct]; rfl, hd, fun _ => hz (by omega)⟩

theorem digitsValAux_nil (a : Nat) : digitsValAux a [] = a := rfl

theorem digitsValAux_cons (a : Nat) (c : Char) (t : List Char) :
    digitsValAux a (c :: t) = digitsValAux (10 * a + (c.toNat - 48)) t := rfl

theorem digitsValAux_append (l1 l2 : List Char) :
    ∀ a, digitsValAux a (l1 ++ l2) = digitsValAux (digitsValAux a l1) l2 := by
  induction l1 with
  | nil => intro a; rfl
  | cons c t ih =>
    intro a
    rw [List.cons_append, digitsValAux_cons, digitsValAux_cons]
    exact ih _

theorem digitsValAux_natToCharsAux :
    ∀ fuel n, n < fuel →
      ∃ k, ∀ a, digitsValAux a (natToCharsAux fuel n) = a * 10 ^ k + n := by
  intro fuel
  induction fuel with
  | zero => intro n h; omega
  | succ f ih =>
    intro n hn
    rw [natToCharsAux]
    by_cases h10 : n < 10
    · rw [if_pos h10]
      refine ⟨1, fun a => ?_⟩
      rw [digitsValAux_cons, digitsValAux_nil, digitChar_toNat n h10]
      omega
    · rw [if_neg h10]
      obtain ⟨k, hk⟩ := ih (n / 10) (by omega)
      refine ⟨k + 1, fun a => ?_⟩
      rw [digitsValAux_append, hk, digitsValAux_cons, digitsValAux_nil,
        digitChar_toNat (n % 10) (by omega)]
      have hpow : 10 * (a * 10 ^ k) = a * 10 ^ (k + 1) := by ring
      generalize hA : a * 10 ^ k = b at hpow ⊢
      generalize hB : a * 10 ^ (k + 1) = b2 at hpow ⊢
      omega

theorem intStop_head_not_digit {r : List Char} (h : intStop r = true) :
    ∀ c t, r = c :: t → isDigit c = false := by
  intro c t hr
  subst hr
  simp only [intStop, Bool.not_eq_eq_eq_not, Bool.not_true, Bool.or_eq_false_iff] at h
  exact h.1.1.1

theorem takeDigits_append {ds r : List Char}
    (hds : ∀ c ∈ ds, isDigit c = true)
    (hr : ∀ c t, r = c :: t → isDigit c = false) :
    takeDigits (ds ++ r) = (ds, r) := by
  induction ds with
  | nil =>
    cases r with
    | nil => rfl
    | cons c t =>
      rw [List.nil_append, takeDigits, hr c t rfl]
      simp
  | cons d ds' ih =>
    have hd : isDigit d = true := hds d (List.mem_cons_self d ds')
    rw [List.cons_append, takeDigits, hd]
    rw [ih fun c hc => hds c (List.mem_cons_of_mem d hc)]
    simp

theorem digitsVal_natToCharsAux {fuel n : Nat} (h : n < fuel) :
    digitsVal (natToCharsAux fuel n) = n := by
  obtain ⟨k, hk⟩ := digitsValAux_natToCharsAux fuel n h
  simpa [digitsVal] using hk 0

theorem ne_minus_of_isDigit {c : Char} (h : isDigit c = true) : ¬(c = '-') := by
  intro h'
  subst h'
  exact absurd h (by decide)

theorem ne_zeroChar_of_isDigit_pos {c : Char} : c ≠ '0' → ¬(c = '0') := fun h => h

theorem parseNumTail_round {fuel n : Nat} (rest : List Char)
    (hn : n < fuel) (hstop : intStop rest = true) :
    parseNumTail (natToCharsAux fuel n ++ rest) = some (n, rest) := by
  rcases Nat.eq_zero_or_pos n with rfl | hpos
  · cases fuel with
    | zero => omega
    | succ f =>
      rw [natToCharsAux, if_pos (by omega)]
      show parseNumTail ('0' :: rest) = some (0, rest)
      rw [parseNumTail, if_pos rfl, hstop]
      rfl
  · obtain ⟨c, t, hct, hdig, hne0⟩ := natToCharsAux_head fuel n hn
    have hne0' : ¬(c = '0') := hne0 hpos
    have htdig : ∀ x ∈ t, isDigit x = true := by
      intro x hx
      exact natToCharsAux_digits fuel n hn x (by rw [hct]; exact List.mem_cons_of_mem c hx)
    have hval : digitsVal (c :: t) = n := by rw [← hct]; exact digitsVal_natToCharsAux hn
    rw [hct, List.cons_append, parseNumTail, if_neg hne0', hdig]
    have htake : takeDigits (t ++ rest) = (t, rest) :=
      takeDigits_append htdig (intStop_head_not_digit hstop)
    simp only [htake, hstop, if_true, hval]

theorem parseNum_intToChars (n : Int) (rest : List Char)
    (hstop : intStop rest = true) :
    parseNum (intToChars n ++ rest) = some (n, rest) := by
  rw [intToChars]
  by_cases hneg : n < 0
  · rw [if_pos hneg, List.cons_append, parseNum, if_pos rfl,
      show natToChars n.natAbs = natToCharsAux (n.natAbs + 1) n.natAbs from rfl,
      parseNumTail_round rest (Nat.lt_succ_self _) hstop]
    simp only [Option.map_some']
    congr 2
    omega
  · rw [if_neg hneg]
    obtain ⟨c, t, hct, hdig, _⟩ :=
      natToCharsAux_head (n.natAbs + 1) n.natAbs (Nat.lt_succ_self _)
    rw [show natToChars n.natAbs = natToCharsAux (n.natAbs + 1) n.natAbs from rfl, hct,
      List.cons_append, parseNum, if_neg (ne_minus_of_isDigit hdig), ← List.cons_append,
      ← hct, parseNumTail_round rest (Nat.lt_succ_self _) hstop]
    simp only [Option.map_some']
    congr 2
    omega

theorem decide_and_eq_false {p q : Prop} [Decidable p] [Decidable q]
    (h : ¬(p ∧ q)) : (decide p && decide q) = false := by
  by_cases hp : p
  · by_cases hq : q
    · exact absurd ⟨hp, hq⟩ h
    · simp [hq]
  · simp [hp]

theorem decide_and_eq_true {p q : Prop} [Decidable p] [Decidable q]
    (h : p ∧ q) : (decide p && decide q) = true := by
  simp [h.1, h.2]

theorem decide_or_eq_true {p q : Prop} [Decidable p] [Decidable q]
    (h : p ∨ q) : (decide p || decide q) = true := by
  rcases h with h | h <;> simp [h]

theorem decide_or_eq_false {p q : Prop} [Decidable p] [Decidable q]
    (h : ¬(p ∨ q)) : (decide p || decide q) = false := by
  push_neg at h
  simp [h.1, h.2]

theorem hexVal_hexDigitChar : ∀ d, d < 16 → hexVal (hexDigitChar d) = some d := by decide

theorem char_toNat_valid (c : Char) :
    c.toNat < 55296 ∨ (57343 < c.toNat ∧ c.toNat < 1114112) := by
  have h := c.valid
  rcases h with h | ⟨h1, h2⟩
  · exact Or.inl (UInt32.toNat_lt_of_lt (by norm_num [UInt32.size]) h)
  · exact Or.inr ⟨UInt32.lt_toNat_of_lt (by norm_num [UInt32.size]) h1,
      UInt32.toNat_lt_of_lt (by norm_num [UInt32.size]) h2⟩

theorem parseHex4_eq {c1 c2 c3 c4 : Char} {d1 d2 d3 d4 : Nat} (r : List Char)
    (h1 : hexVal c1 = some d1) (h2 : hexVal c2 = some d2)
    (h3 : hexVal c3 = some d3) (h4 : hexVal c4 = some d4) :
    parseHex4 (c1 :: c2 :: c3 :: c4 :: r) =
      some (d1 * 4096 + d2 * 256 + d3 * 16 + d4, r) := by
  rw [parseHex4, h1, Option.some_bind, h2, Option.some_bind, h3, Option.some_bind,
    h4, Option.some_bind]

theorem parseStrBody_esc (f : Nat) (e : Char) (r1 : List Char) :
    parseStrBody (f + 1) ('\\' :: e :: r1) =
      (if e = 'u' then
        (parseUEsc r1).bind fun u =>
          (parseStrBody f u.2).map fun p => (u.1 :: p.1, p.2)
      else
        (parseEscChar e).bind fun ch =>
          (parseStrBody f r1).map fun p => (ch :: p.1, p.2)) := by
  rfl

theorem parseStrBody_plain (f : Nat) (c : Char) (rest : List Char)
    (h1 : ¬(c = '"')) (h2 : ¬(c = '\\')) (h3 : ¬(c.toNat < 32)) :
    parseStrBody (f + 1) (c :: rest) =
      (parseStrBody f rest).map fun p => (c :: p.1, p.2) := by
  rw [parseStrBody.eq_def]
  split <;> first | omega | simp_all

theorem parseStrBody_round :
    ∀ (s : List Char) (fuel : Nat) (rest : List Char), s.length < fuel →
      parseStrBody fuel (escapeString s ++ ('"' :: rest)) = some (s, rest) := by
  intro s
  induction s with
  | nil =>
    intro fuel rest hf
    cases fuel with
    | zero => omega
    | succ f => rw [escapeString, List.nil_append]; rfl
  | cons c s' ih =>
    intro fuel rest hf
    cases fuel with
    | zero => omega
    | succ f =>
    have hf' : s'.length < f := by simp only [List.length_cons] at hf; omega
    rw [escapeString, List.append_assoc, escapeChar]
    by_cases h1 : c = '"'
    · subst h1
      rw [if_pos rfl, List.cons_append, List.cons_append, List.nil_append,
        parseStrBody_esc, if_neg (by decide : ¬('"' = 'u')),
        show parseEscChar '"' = some '"' from rfl, Option.some_bind, ih f rest hf']
      rfl
    rw [if_neg h1]
    by_cases h2 : c = '\\'
    · subst h2
      rw [if_pos rfl, List.cons_append, List.cons_append, List.nil_append,
        parseStrBody_esc, if_neg (by decide : ¬('\\' = 'u')),
        show parseEscChar '\\' = some '\\' from rfl, Option.some_bind, ih f rest hf']
      rfl
    rw [if_neg h2]
    by_cases h3 : c = '\n'
    · subst h3
      rw [if_pos rfl, List.cons_append, List.cons_append, List.nil_append,
        parseStrBody_esc, if_neg (by decide : ¬('n' = 'u')),
        show parseEscChar 'n' = some '\n' from rfl, Option.some_bind, ih f rest hf']
      rfl
    rw [if_neg h3]
    by_cases h4 : c = '\r'
    · subst h4
      rw [if_pos rfl, List.cons_append, List.cons_append, List.nil_append,
        parseStrBody_esc, if_neg (by decide : ¬('r' = 'u')),
        show parseEscChar 'r' = some '\r' from rfl, Option.some_bind, ih f rest hf']
      rfl
    rw [if_neg h4]
    by_cases h5 : c = '\t'
    · subst h5
      rw [if_pos rfl, List.cons_append, List.cons_append, List.nil_append,
        parseStrBody_esc, if_neg (by decide : ¬('t' = 'u')),
        show parseEscChar 't' = some '\t' from rfl, Option.some_bind, ih f rest hf']
      rfl
    rw [if_neg h5]
    by_cases h6 : c.toNat = 8
    · have hc : c = Char.ofNat 8 := by rw [← Char.ofNat_toNat c, h6]
      subst hc
      rw [if_pos h6, List.cons_append, List.cons_append, List.nil_append,
        parseStrBody_esc, if_neg (by decide : ¬('b' = 'u')),
        show parseEscChar 'b' = some (Char.ofNat 8) from rfl, Option.some_bind,
        ih f rest hf']
      rfl
    rw [if_neg h6]
    by_cases h7 : c.toNat = 12
    · have hc : c = Char.ofNat 12 := by rw [← Char.ofNat_toNat c, h7]
      subst hc
      rw [if_pos h7, List.cons_append, List.cons_append, List.nil_append,
        parseStrBody_esc, if_neg (by decide : ¬('f' = 'u')),
        show parseEscChar 'f' = some (Char.ofNat 12) from rfl, Option.some_bind,
        ih f rest hf']
      rfl
    rw [if_neg h7]
    have hvalid := char_toNat_valid c
    by_cases h8 : c.toNat < 32 ∨ 126 < c.toNat
    · rw [if_pos (decide_or_eq_true h8)]
      by_cases h9 : c.toNat < 65536
      · rw [if_pos h9]
        have hv1 := hexVal_hexDigitChar (c.toNat / 4096 % 16) (by omega)
        have hv2 := hexVal_hexDigitChar (c.toNat / 256 % 16) (by omega)
        have hv3 := hexVal_hexDigitChar (c.toNat / 16 % 16) (by omega)
        have hv4 := hexVal_hexDigitChar (c.toNat % 16) (by omega)
        have hrec : c.toNat / 4096 % 16 * 4096 + c.toNat / 256 % 16 * 256 +
            c.toNat / 16 % 16 * 16 + c.toNat % 16 = c.toNat := by omega
        have hs1 : (decide (55296 ≤ c.toNat) && decide (c.toNat < 56320)) = false :=
          decide_and_eq_false (by omega)
        have hs2 : (decide (56320 ≤ c.toNat) && decide (c.toNat < 57344)) = false :=
          decide_and_eq_false (by omega)
        simp only [hex4Chars, List.cons_append, List.nil_append]
        rw [parseStrBody_esc, if_pos rfl, parseUEsc,
          parseHex4_eq _ hv1 hv2 hv3 hv4, Option.some_bind]
        simp only [hrec]
        rw [if_neg (by rw [hs1]; exact Bool.false_ne_true),
          if_neg (by rw [hs2]; exact Bool.false_ne_true),
          Option.some_bind]
        simp only [ih f rest hf', Option.map_some']
        rw [Char.ofNat_toNat]
      · rw [if_neg h9]
        have hv1 := hexVal_hexDigitChar ((55296 + (c.toNat - 65536) / 1024) / 4096 % 16) (by omega)
        have hv2 := hexVal_hexDigitChar ((55296 + (c.toNat - 65536) / 1024) / 256 % 16) (by omega)
        have hv3 := hexVal_hexDigitChar ((55296 + (c.toNat - 65536) / 1024) / 16 % 16) (by omega)
        have hv4 := hexVal_hexDigitChar ((55296 + (c.toNat - 65536) / 1024) % 16) (by omega)
        have hw1 := hexVal_hexDigitChar ((56320 + (c.toNat - 65536) % 1024) / 4096 % 16) (by omega)
        have hw2 := hexVal_hexDigitChar ((56320 + (c.toNat - 65536) % 1024) / 256 % 16) (by omega)
        have hw3 := hexVal_hexDigitChar ((56320 + (c.toNat - 65536) % 1024) / 16 % 16) (by omega)
        have hw4 := hexVal_hexDigitChar ((56320 + (c.toNat - 65536) % 1024) % 16) (by omega)
        have hrecHi : (55296 + (c.toNat - 65536) / 1024) / 4096 % 16 * 4096 +
            (55296 + (c.toNat - 65536) / 1024) / 256 % 16 * 256 +
            (55296 + (c.toNat - 65536) / 1024) / 16 % 16 * 16 +
            (55296 + (c.toNat - 65536) / 1024) % 16 =
            55296 + (c.toNat - 65536) / 1024 := by omega
        have hrecLo : (56320 + (c.toNat - 65536) % 1024) / 4096 % 16 * 4096 +
            (56320 + (c.toNat - 65536) % 1024) / 256 % 16 * 256 +
            (56320 + (c.toNat - 65536) % 1024) / 16 % 16 * 16 +
            (56320 + (c.toNat - 65536) % 1024) % 16 =
            56320 + (c.toNat - 65536) % 1024 := by omega
        have hcomb : 65536 + (55296 + (c.toNat - 65536) / 1024 - 55296) * 1024 +
            (56320 + (c.toNat - 65536) % 1024 - 56320) = c.toNat := by omega
        simp only [hex4Chars, List.cons_append, List.nil_append]
        rw [parseStrBody_esc, if_pos rfl, parseUEsc,
          parseHex4_eq _ hv1 hv2 hv3 hv4, Option.some_bind]
        simp only [hrecHi]
        rw [if_pos (decide_and_eq_true ⟨by omega, by omega⟩)]
        rw [parseHex4_eq _ hw1 hw2 hw3 hw4, Option.some_bind]
        simp only [hrecLo]
        rw [if_pos (decide_and_eq_true ⟨by omega, by omega⟩), Option.some_bind]
        simp only [ih f rest hf', Option.map_some']
        rw [hcomb, Char.ofNat_toNat]
    · rw [if_neg (by rw [decide_or_eq_false h8]; exact Bool.false_ne_true)]
      rw [List.cons_append, List.nil_append,
        parseStrBody_plain f c _ h1 h2 (by omega), ih f rest hf']
      rfl

theorem escapeChar_length_pos (c : Char) : 1 ≤ (escapeChar c).length := by
  unfold escapeChar
  split_ifs <;> simp [hex4Chars]

theorem escapeString_length_ge : ∀ s : List Char, s.length ≤ (escapeString s).length := by
  intro s
  induction s with
  | nil => simp [escapeString]
  | cons c t ih =>
    rw [escapeString, List.length_append, List.length_cons]
    have := escapeChar_length_pos c
    omega

theorem parseVal_cons (f : Nat) (c : Char) (t : List Char) :
    parseVal (f + 1) (c :: t) =
      (if c = '"' then (parseStrBody (f + 1) t).map fun p => (Json.str (String.mk p.1), p.2)
       else if c = '\x7b' then
         match skipWs t with
         | '\x7d' :: r2 => some (Json.obj [], r2)
         | r2 => (parseFields f r2).map fun p => (Json.obj p.1, p.2)
       else if c = '[' then
         match skipWs t with
         | ']' :: r2 => some (Json.arr [], r2)
         | r2 => (parseElems f r2).map fun p => (Json.arr p.1, p.2)
       else if c = 't' then
         match t with
         | 'r' :: 'u' :: 'e' :: r2 => some (Json.bool true, r2)
         | _ => none
       else if c = 'f' then
         match t with
         | 'a' :: 'l' :: 's' :: 'e' :: r2 => some (Json.bool false, r2)
         | _ => none
       else if c = 'n' then
         match t with
         | 'u' :: 'l' :: 'l' :: r2 => some (Json.null, r2)
         | _ => none
       else if c = '-' || isDigit c then (parseNum (c :: t)).map fun p => (Json.num p.1, p.2)
       else none) := rfl

theorem parseElems_succ (f : Nat) (input : List Char) :
    parseElems (f + 1) input =
      (parseVal f input).bind fun p =>
        match skipWs p.2 with
        | ',' :: r2 => (parseElems f (skipWs r2)).bind fun q => some (p.1 :: q.1, q.2)
        | ']' :: r2 => some ([p.1], r2)
        | _ => none := rfl

theorem parseFields_succ (f : Nat) (rest : List Char) :
    parseFields (f + 1) ('"' :: rest) =
      (parseStrBody (f + 1) rest).bind fun kp =>
        match skipWs kp.2 with
        | ':' :: r2 =>
          (parseVal f (skipWs r2)).bind fun vp =>
            match skipWs vp.2 with
            | ',' :: r4 =>
              (parseFields f (skipWs r4)).bind fun q =>
                some ((String.mk kp.1, vp.1) :: q.1, q.2)
            | '\x7d' :: r4 => some ([(String.mk kp.1, vp.1)], r4)
            | _ => none
        | _ => none := rfl

/-- The first character a serialized value can start with is never
whitespace, a closing bracket, or a separator. -/
theorem dumpsI_head : ∀ (d : Nat) (v : Json),
    ∃ c cs, dumpsI d v = c :: cs ∧ isWs c = false ∧ ¬(c = ']') ∧ ¬(c = '\x7d') := by
  intro d v
  cases v with
  | null => exact ⟨'n', _, by rw [dumpsI], by decide, by decide, by decide⟩
  | bool b =>
    cases b with
    | true => exact ⟨'t', _, by rw [dumpsI], by decide, by decide, by decide⟩
    | false => exact ⟨'f', _, by rw [dumpsI], by decide, by decide, by decide⟩
  | num n =>
    by_cases hn : n < 0
    · exact ⟨'-', _, by rw [dumpsI, intToChars, if_pos hn], by decide, by decide, by decide⟩
    · obtain ⟨c, t, hct, hd, _⟩ :=
        natToCharsAux_head (n.natAbs + 1) n.natAbs (Nat.lt_succ_self _)
      refine ⟨c, t, by rw [dumpsI, intToChars, if_neg hn]; exact hct,
        isWs_false_of_isDigit hd, ?_, ?_⟩
      · intro heq; subst heq; exact absurd hd (by decide)
      · intro heq; subst heq; exact absurd hd (by decide)
  | str s =>
    exact ⟨'"', escapeString s.data ++ ['"'], by rw [dumpsI]; rfl,
      by decide, by decide, by decide⟩
  | arr l =>
    cases l with
    | nil => exact ⟨'[', _, by rw [dumpsI], by decide, by decide, by decide⟩
    | cons v vs => exact ⟨'[', _, by rw [dumpsI], by decide, by decide, by decide⟩
  | obj l =>
    cases l with
    | nil => exact ⟨'\x7b', _, by rw [dumpsI], by decide, by decide, by decide⟩
    | cons fv fs => exact ⟨'\x7b', _, by rw [dumpsI], by decide, by decide, by decide⟩

theorem skipWs_dumpsI (d : Nat) (v : Json) (t : List Char) :
    skipWs (dumpsI d v ++ t) = dumpsI d v ++ t := by
  obtain ⟨c, cs, h, hws, _, _⟩ := dumpsI_head d v
  rw [h, List.cons_append, skipWs_cons_of_not_ws hws]

theorem dumpsI_length_pos (d : Nat) (v : Json) : 1 ≤ (dumpsI d v).length := by
  obtain ⟨c, cs, h, _, _, _⟩ := dumpsI_head d v
  rw [h]
  simp

theorem skipWs_cons_ws {c : Char} (h : isWs c = true) (l : List Char) :
    skipWs (c :: l) = skipWs l := by
  simp [skipWs, h]

theorem intToChars_head (n : Int) :
    ∃ c t, intToChars n = c :: t ∧ (c = '-' ∨ isDigit c = true) := by
  by_cases hn : n < 0
  · exact ⟨'-', _, by rw [intToChars, if_pos hn], Or.inl rfl⟩
  · obtain ⟨c, t, hct, hd, _⟩ :=
      natToCharsAux_head (n.natAbs + 1) n.natAbs (Nat.lt_succ_self _)
    exact ⟨c, t, by rw [intToChars, if_neg hn]; exact hct, Or.inr hd⟩

theorem hyphen_or_digit_ne {c : Char} (h : c = '-' ∨ isDigit c = true) :
    ¬(c = '"') ∧ ¬(c = '\x7b') ∧ ¬(c = '[') ∧ ¬(c = 't') ∧ ¬(c = 'f') ∧ ¬(c = 'n') := by
  rcases h with rfl | h
  · exact ⟨by decide, by decide, by decide, by decide, by decide, by decide⟩
  · refine ⟨?_, ?_, ?_, ?_, ?_, ?_⟩ <;>
      exact fun heq => by subst heq; exact absurd h (by decide)

theorem parseVal_num (f : Nat) (n : Int) (rest : List Char) (hstop : intStop rest = true) :
    parseVal (f + 1) (intToChars n ++ rest) = some (Json.num n, rest) := by
  obtain ⟨c, t, hct, hcd⟩ := intToChars_head n
  obtain ⟨n1, n2, n3, n4, n5, n6⟩ := hyphen_or_digit_ne hcd
  have hb : (decide (c = '-') || isDigit c) = true := by
    rcases hcd with rfl | h
    · simp
    · simp [h]
  rw [hct, List.cons_append, parseVal_cons, if_neg n1, if_neg n2, if_neg n3,
    if_neg n4, if_neg n5, if_neg n6, if_pos hb, ← List.cons_append, ← hct,
    parseNum_intToChars n rest hstop]
  rfl

theorem matchValArrDefault {α : Type} (c : Char) (cs : List Char)
    (A : List Char → α) (B : List Char → α) (h : ¬(c = ']')) :
    (match c :: cs with
     | ']' :: r2 => A r2
     | r2 => B r2) = B (c :: cs) := by
  split
  next heq => exact absurd (List.cons_eq_cons.mp heq).1 h
  next => rfl

theorem matchValObjDefault {α : Type} (c : Char) (cs : List Char)
    (A : List Char → α) (B : List Char → α) (h : ¬(c = '\x7d')) :
    (match c :: cs with
     | '\x7d' :: r2 => A r2
     | r2 => B r2) = B (c :: cs) := by
  split
  next heq => exact absurd (List.cons_eq_cons.mp heq).1 h
  next => rfl

theorem matchElemsComma {α : Type} (r : List Char) (A B : List Char → α) (C : α) :
    (match ',' :: r with
     | ',' :: r2 => A r2
     | ']' :: r2 => B r2
     | _ => C) = A r := rfl

theorem matchElemsBracket {α : Type} (r : List Char) (A B : List Char → α) (C : α) :
    (match ']' :: r with
     | ',' :: r2 => A r2
     | ']' :: r2 => B r2
     | _ => C) = B r := rfl

theorem matchFieldsColon {α : Type} (r : List Char) (A : List Char → α) (C : α) :
    (match ':' :: r with
     | ':' :: r2 => A r2
     | _ => C) = A r := rfl

theorem matchFieldsComma {α : Type} (r : List Char) (A B : List Char → α) (C : α) :
    (match ',' :: r with
     | ',' :: r4 => A r4
     | '\x7d' :: r4 => B r4
     | _ => C) = A r := rfl

theorem matchFieldsBrace {α : Type} (r : List Char) (A B : List Char → α) (C : α) :
    (match '\x7d' :: r with
     | ',' :: r4 => A r4
     | '\x7d' :: r4 => B r4
     | _ => C) = B r := rfl

theorem skipWs_dumpsField (d : Nat) (kv : String × Json) (t : List Char) :
    skipWs (dumpsField d kv ++ t) = dumpsField d kv ++ t := by
  obtain ⟨k, v⟩ := kv
  rw [dumpsField, quoteString, List.cons_append, List.cons_append,
    skipWs_cons_of_not_ws (by decide)]

theorem parse_round : ∀ f : Nat,
    (∀ (v : Json) (d : Nat) (rest : List Char), intStop rest = true →
      (dumpsI d v).length ≤ f →
      parseVal f (dumpsI d v ++ rest) = some (v, rest)) ∧
    (∀ (v : Json) (vs : List Json) (d : Nat) (ws rest : List Char), wsOnly ws →
      1 + (dumpsI d v).length + (dumpsElems d vs).length ≤ f →
      parseElems f (dumpsI d v ++ (dumpsElems d vs ++ (ws ++ (']' :: rest)))) =
        some (v :: vs, rest)) ∧
    (∀ (k : String) (v : Json) (fs : List (String × Json)) (d : Nat) (ws rest : List Char),
      wsOnly ws →
      1 + (dumpsField d (k, v)).length + (dumpsFields d fs).length ≤ f →
      parseFields f (dumpsField d (k, v) ++ (dumpsFields d fs ++ (ws ++ ('\x7d' :: rest)))) =
        some ((k, v) :: fs, rest)) := by
  intro f
  induction f with
  | zero =>
    refine ⟨?_, ?_, ?_⟩
    · intro v d rest _ hlen
      have := dumpsI_length_pos d v
      omega
    · intro v vs d ws rest _ hlen
      omega
    · intro k v fs d ws rest _ hlen
      omega
  | succ f ih =>
    obtain ⟨ihP, ihQ, ihR⟩ := ih
    refine ⟨?_, ?_, ?_⟩
    · intro v d rest hstop hlen
      cases v with
      | null => rw [dumpsI]; rfl
      | bool b => cases b <;> (rw [dumpsI]; rfl)
      | num n => rw [dumpsI]; exact parseVal_num f n rest hstop
      | str s =>
        obtain ⟨sd⟩ := s
        rw [dumpsI] at hlen ⊢
        have hhl : sd.length < f + 1 := by
          have := escapeString_length_ge sd
          simp only [quoteString, List.length_cons, List.length_append,
            List.length_singleton] at hlen
          omega
        rw [show quoteString (String.mk sd) ++ rest =
            '"' :: (escapeString sd ++ ('"' :: rest)) from by
          simp [quoteString, List.append_assoc]]
        rw [parseVal_cons, if_pos rfl, parseStrBody_round sd (f + 1) rest hhl]
        rfl
      | arr l =>
        cases l with
        | nil => rw [dumpsI]; rfl
        | cons v vs =>
          rw [dumpsI] at hlen ⊢
          have hfuel : 1 + (dumpsI (d + 1) v).length + (dumpsElems (d + 1) vs).length ≤ f := by
            simp only [List.length_cons, List.length_append, nlIndent,
              List.length_replicate, List.length_singleton] at hlen
            omega
          rw [List.cons_append, parseVal_cons,
            if_neg (by decide : ¬('[' = '"')), if_neg (by decide : ¬('[' = '\x7b')),
            if_pos rfl]
          rw [show (nlIndent (d + 1) ++ dumpsI (d + 1) v ++ dumpsElems (d + 1) vs ++
              nlIndent d ++ [']']) ++ rest =
              nlIndent (d + 1) ++ (dumpsI (d + 1) v ++ (dumpsElems (d + 1) vs ++
                (nlIndent d ++ (']' :: rest)))) from by
            simp [List.append_assoc]]
          rw [skipWs_append_of_wsOnly (wsOnly_nlIndent (d + 1)), skipWs_dumpsI]
          obtain ⟨c0, cs0, hh, _, hnb, _⟩ := dumpsI_head (d + 1) v
          rw [hh, List.cons_append, matchValArrDefault c0 _ _ _ hnb,
            ← List.cons_append, ← hh,
            ihQ v vs (d + 1) (nlIndent d) rest (wsOnly_nlIndent d) hfuel]
          rfl
      | obj l =>
        cases l with
        | nil => rw [dumpsI]; rfl
        | cons kv fs =>
          obtain ⟨k, v⟩ := kv
          rw [dumpsI] at hlen ⊢
          have hfuel : 1 + (dumpsField (d + 1) (k, v)).length +
              (dumpsFields (d + 1) fs).length ≤ f := by
            simp only [List.length_cons, List.length_append, nlIndent,
              List.length_replicate, List.length_singleton] at hlen
            omega
          rw [List.cons_append, parseVal_cons,
            if_neg (by decide : ¬('\x7b' = '"')), if_pos rfl]
          rw [show (nlIndent (d + 1) ++ dumpsField (d + 1) (k, v) ++ dumpsFields (d + 1) fs ++
              nlIndent d ++ ['\x7d']) ++ rest =
              nlIndent (d + 1) ++ (dumpsField (d + 1) (k, v) ++ (dumpsFields (d + 1) fs ++
                (nlIndent d ++ ('\x7d' :: rest)))) from by
            simp [List.append_assoc]]
          rw [skipWs_append_of_wsOnly (wsOnly_nlIndent (d + 1)), skipWs_dumpsField]
          have hh : dumpsField (d + 1) (k, v) =
              '"' :: ((escapeString k.data ++ ['"']) ++ ':' :: ' ' :: dumpsI (d + 1) v) := by
            rw [dumpsField, quoteString, List.cons_append]
          rw [hh, List.cons_append, matchValObjDefault '"' _ _ _ (by decide),
            ← List.cons_append, ← hh,
            ihR k v fs (d + 1) (nlIndent d) rest (wsOnly_nlIndent d) hfuel]
          rfl
    · intro v vs d ws rest hws hlen
      rw [parseElems_succ]
      have hstop : intStop (dumpsElems d vs ++ (ws ++ (']' :: rest))) = true :=
        intStop_elems_tail d vs ws rest hws
      rw [ihP v d _ hstop (by omega)]
      simp only [Option.some_bind]
      cases vs with
      | nil =>
        rw [dumpsElems, List.nil_append, skipWs_append_of_wsOnly hws,
          skipWs_cons_of_not_ws (by decide), matchElemsBracket]
      | cons v2 vs2 =>
        rw [dumpsElems] at hlen ⊢
        have hfuel : 1 + (dumpsI d v2).length + (dumpsElems d vs2).length ≤ f := by
          simp only [List.length_cons, List.length_append, nlIndent,
            List.length_replicate] at hlen
          omega
        rw [show (',' :: (nlIndent d ++ dumpsI d v2 ++ dumpsElems d vs2)) ++
            (ws ++ (']' :: rest)) =
            ',' :: (nlIndent d ++ (dumpsI d v2 ++ (dumpsElems d vs2 ++
              (ws ++ (']' :: rest))))) from by
          simp [List.append_assoc]]
        rw [skipWs_cons_of_not_ws (by decide), matchElemsComma,
          skipWs_append_of_wsOnly (wsOnly_nlIndent d), skipWs_dumpsI,
          ihQ v2 vs2 d ws rest hws hfuel]
        rfl
    · intro k v fs d ws rest hws hlen
      obtain ⟨kd⟩ := k
      rw [dumpsField] at hlen ⊢
      have hkl : kd.length < f + 1 := by
        have := escapeString_length_ge kd
        simp only [quoteString, List.length_cons, List.length_append,
          List.length_singleton] at hlen
        omega
      have hvfuel : (dumpsI d v).length ≤ f := by
        simp only [quoteString, List.length_cons, List.length_append,
          List.length_singleton] at hlen
        omega
      rw [show (quoteString (String.mk kd) ++ ':' :: ' ' :: dumpsI d v) ++
          (dumpsFields d fs ++ (ws ++ ('\x7d' :: rest))) =
          '"' :: (escapeString kd ++ ('"' :: (':' :: (' ' :: (dumpsI d v ++
            (dumpsFields d fs ++ (ws ++ ('\x7d' :: rest)))))))) from by
        simp [quoteString, List.append_assoc]]
      rw [parseFields_succ, parseStrBody_round kd (f + 1) _ hkl]
      simp only [Option.some_bind]
      rw [skipWs_cons_of_not_ws (by decide), matchFieldsColon,
        skipWs_cons_ws (by decide), skipWs_dumpsI]
      have hstop : intStop (dumpsFields d fs ++ (ws ++ ('\x7d' :: rest))) = true :=
        intStop_fields_tail d fs ws rest hws
      rw [ihP v d _ hstop hvfuel]
      simp only [Option.some_bind]
      cases fs with
      | nil =>
        rw [dumpsFields, List.nil_append, skipWs_append_of_wsOnly hws,
          skipWs_cons_of_not_ws (by decide), matchFieldsBrace]
      | cons kv2 fs2 =>
        obtain ⟨k2, v2⟩ := kv2
        rw [dumpsFields] at hlen ⊢
        have hfuel : 1 + (dumpsField d (k2, v2)).length + (dumpsFields d fs2).length ≤ f := by
          simp only [List.length_cons, List.length_append, nlIndent,
            List.length_replicate] at hlen
          omega
        rw [show (',' :: (nlIndent d ++ dumpsField d (k2, v2) ++ dumpsFields d fs2)) ++
            (ws ++ ('\x7d' :: rest)) =
            ',' :: (nlIndent d ++ (dumpsField d (k2, v2) ++ (dumpsFields d fs2 ++
              (ws ++ ('\x7d' :: rest))))) from by
          simp [List.append_assoc]]
        rw [skipWs_cons_of_not_ws (by decide), matchFieldsComma,
          skipWs_append_of_wsOnly (wsOnly_nlIndent d), skipWs_dumpsField,
          ihR k2 v2 fs2 d ws rest hws hfuel]
        rfl

/-- C7: `inspect_response` (i.e. `json.dumps(…, indent=4)`) is a total pure
function whose output re-parses to exactly the input mapping — the
serialization round-trip holds for every JSON value of the model, in
particular for the five-key weather summary. -/
theorem C7_inspect_response_round_trip :
    ∀ v : Json, json_loads (inspect_response v) = some v := by
  intro v
  have hdata : (inspect_response v).data = dumpsI 0 v := rfl
  have hski : skipWs (dumpsI 0 v) = dumpsI 0 v := by
    simpa using skipWs_dumpsI 0 v []
  have hP := (parse_round ((dumpsI 0 v).length + 1)).1 v 0 [] rfl (Nat.le_succ _)
  rw [List.append_nil] at hP
  simp only [json_loads, hdata, hski, hP]
  rfl

/-! ### Claims -/

/-- C3: for every non-string argument, `search_weather` raises a `TypeError`
immediately — uniformly in the environment and the network, with no event
(no credential read, no network I/O); for string arguments that check never
raises, and in fact the call always returns a value. -/
theorem C3_typeerror_non_string :
    (∀ (v : PyVal) (env : Option String) (net : String → FetchResult),
        v.isStr = false →
        search_weather v env net =
          (Except.error (PyExn.typeError "Input must be a string."), [])) ∧
    (∀ (s : String) (env : Option String) (net : String → FetchResult),
        ∃ j, (search_weather (.str s) env net).1 = Except.ok j) := by
  constructor
  · intro v env net h
    cases v with
    | str s => simp [PyVal.isStr] at h
    | _ => rfl
  · intro s env net
    simp only [search_weather]
    cases hn : net (buildURL s (load_environment env)) with
    | exn m => exact ⟨Json.obj [], by simp⟩
    | response r =>
      by_cases he : isErrorStatus r.statusCode
      · exact ⟨Json.obj [], by simp [he]⟩
      · cases hj : json_loads r.body with
        | some v => exact ⟨v, by simp [he, hj]⟩
        | none => exact ⟨Json.obj [], by simp [he, hj]⟩

/-- Witness for C3 at the concrete non-string argument `0`. -/
theorem C3_witness :
    search_weather (.int 0) none (fun _ => FetchResult.exn "e") =
      (Except.error (PyExn.typeError "Input must be a string."), []) :=
  C3_typeerror_non_string.1 (.int 0) none (fun _ => FetchResult.exn "e") rfl

/-- C9: with `WEATHER_API` unset, `load_environment` returns `None`, the URL
embeds the literal text `None` as the key, the request is still attempted
(the first event is the network call on that URL), and `search_weather`
returns a value rather than raising. -/
theorem C9_unset_key_interpolates_none :
    ∀ (loc : String) (net : String → FetchResult),
      load_environment none = none ∧
      buildURL loc (load_environment none) =
        "https://api.weatherstack.com/current?query=" ++ loc ++ "&access_key=None" ∧
      (search_weather (.str loc) none net).2.head? =
        some (Event.netCall (buildURL loc (load_environment none))) ∧
      ∃ j, (search_weather (.str loc) none net).1 = Except.ok j := by
  intro loc net
  refine ⟨rfl, ?_, ?_, ?_⟩
  · simp [buildURL, pyStrOfOpt, load_environment, String.append_assoc]
  · simp only [search_weather]
    cases hn : net (buildURL loc (load_environment none)) with
    | exn m => simp
    | response r =>
      by_cases he : isErrorStatus r.statusCode
      · simp [he]
      · cases hj : json_loads r.body with
        | some v => simp [he, hj]
        | none => simp [he, hj]
  · simp only [search_weather]
    cases hn : net (buildURL loc (load_environment none)) with
    | exn m => exact ⟨Json.obj [], by simp⟩
    | response r =>
      by_cases he : isErrorStatus r.statusCode
      · exact ⟨Json.obj [], by simp [he]⟩
      · cases hj : json_loads r.body with
        | some v => exact ⟨v, by simp [he, hj]⟩
        | none => exact ⟨Json.obj [], by simp [he, hj]⟩

/-- The extractor, written as the sequence of its five two-level lookups:
exactly its definition, with the doubled `data["location"]` /
`data["current"]` reads folded into `pathEval`. -/
theorem extract_weather_info_eq_paths (d : Json) :
    extract_weather_info d =
      (pathEval d "location" "name" >>= fun name =>
       pathEval d "location" "region" >>= fun region =>
       pathEval d "location" "localtime" >>= fun lt =>
       pathEval d "current" "temperature" >>= fun t =>
       pathEval d "current" "feelslike" >>= fun fl =>
       pure (Json.obj
         [("name", name), ("region", region), ("local_time", lt),
          ("temperature", t), ("feels_like", fl)])) := rfl

/-- A resolvable key makes the subscript succeed. -/
theorem pySub_of_getKey_some {d : Json} {k : String} {v : Json}
    (h : getKey d k = some v) : pySub d k = Except.ok v := by
  cases d with
  | obj fs =>
    simp only [getKey] at h
    simp [pySub, h]
  | _ => simp [getKey] at h

/-- A present two-level path makes `pathEval` succeed. -/
theorem pathEval_of_hasField2 {d : Json} {k1 k2 : String}
    (h : hasField2 d k1 k2 = true) : ∃ v, pathEval d k1 k2 = Except.ok v := by
  simp only [hasField2, Option.isSome_iff_exists, Option.bind_eq_some] at h
  obtain ⟨v, m, hm, hv⟩ := h
  exact ⟨v, by rw [pathEval, pySub_of_getKey_some hm]; simpa using pySub_of_getKey_some hv⟩

/-- On an object whose `k1` entry is an object or absent, a missing
two-level path makes `pathEval` fail with a `KeyError`. -/
theorem pathEval_keyError_of_missing {d : Json} {k1 k2 : String}
    (hobj : isObjB d = true) (hs : subShapeOk d k1 = true)
    (hf : hasField2 d k1 k2 = false) :
    ∃ k, pathEval d k1 k2 = Except.error (PyExn.keyError k) := by
  cases d with
  | obj fs =>
    cases hd : objLookup fs k1 with
    | none =>
      refine ⟨k1, ?_⟩
      show (pySub (Json.obj fs) k1 >>= fun m => pySub m k2) = _
      rw [show pySub (Json.obj fs) k1 = Except.error (PyExn.keyError k1) from by
        simp [pySub, hd]]
      rfl
    | some m =>
      have hm : getKey (Json.obj fs) k1 = some m := hd
      rw [subShapeOk, getKey] at hs
      cases m with
      | obj ms =>
        refine ⟨k2, ?_⟩
        have hnone : objLookup ms k2 = none := by
          rw [hasField2] at hf
          rw [show getKey (Json.obj fs) k1 = some (Json.obj ms) from hd] at hf
          simp only [Option.some_bind, getKey] at hf
          cases hx : objLookup ms k2 with
          | none => rfl
          | some v => rw [hx] at hf; simp at hf
        show (pySub (Json.obj fs) k1 >>= fun m => pySub m k2) = _
        rw [pySub_of_getKey_some hm]
        show pySub (Json.obj ms) k2 = _
        simp [pySub, hnone]
      | _ => simp [hd] at hs
  | _ => simp [isObjB] at hobj

/-- C2: on every input mapping whose `location` / `current` entries are
objects or absent and from which at least one of the five source fields is
missing — in particular the empty mapping — `extract_weather_info` fails
with a `KeyError` (so it never substitutes a default). -/
theorem C2_missing_field_keyerror :
    ∀ d : Json, isObjB d = true →
      subShapeOk d "location" = true → subShapeOk d "current" = true →
      hasAllFive d = false →
      ∃ k, extract_weather_info d = Except.error (PyExn.keyError k) := by
  intro d hobj hsl hsc hall
  cases h1 : hasField2 d "location" "name" with
  | false =>
    obtain ⟨k, hk⟩ := pathEval_keyError_of_missing hobj hsl h1
    exact ⟨k, by rw [extract_weather_info_eq_paths, hk]; rfl⟩
  | true =>
    obtain ⟨v1, hv1⟩ := pathEval_of_hasField2 h1
    cases h2 : hasField2 d "location" "region" with
    | false =>
      obtain ⟨k, hk⟩ := pathEval_keyError_of_missing hobj hsl h2
      exact ⟨k, by rw [extract_weather_info_eq_paths, hv1, hk]; rfl⟩
    | true =>
      obtain ⟨v2, hv2⟩ := pathEval_of_hasField2 h2
      cases h3 : hasField2 d "location" "localtime" with
      | false =>
        obtain ⟨k, hk⟩ := pathEval_keyError_of_missing hobj hsl h3
        exact ⟨k, by rw [extract_weather_info_eq_paths, hv1, hv2, hk]; rfl⟩
      | true =>
        obtain ⟨v3, hv3⟩ := pathEval_of_hasField2 h3
        cases h4 : hasField2 d "current" "temperature" with
        | false =>
          obtain ⟨k, hk⟩ := pathEval_keyError_of_missing hobj hsc h4
          exact ⟨k, by rw [extract_weather_info_eq_paths, hv1, hv2, hv3, hk]; rfl⟩
        | true =>
          obtain ⟨v4, hv4⟩ := pathEval_of_hasField2 h4
          cases h5 : hasField2 d "current" "feelslike" with
          | false =>
            obtain ⟨k, hk⟩ := pathEval_keyError_of_missing hobj hsc h5
            exact ⟨k, by rw [extract_weather_info_eq_paths, hv1, hv2, hv3, hv4, hk]; rfl⟩
          | true =>
            rw [hasAllFive, h1, h2, h3, h4, h5] at hall
            simp at hall

/-- Witness for C2 at the empty mapping, the very value a failed fetch
returns. -/
theorem C2_witness :
    ∃ k, extract_weather_info (Json.obj []) = Except.error (PyExn.keyError k) :=
  C2_missing_field_keyerror (Json.obj []) rfl rfl rfl rfl

/-- C5: the extractor is a pure projection: whenever the five source fields
hold the values `n`, `r`, `lt`, `t`, `fl`, the result is exactly the
five-key mapping carrying them unchanged. -/
theorem C5_extract_projects_five_fields :
    ∀ d n r lt t fl : Json,
      pathEval d "location" "name" = Except.ok n →
      pathEval d "location" "region" = Except.ok r →
      pathEval d "location" "localtime" = Except.ok lt →
      pathEval d "current" "temperature" = Except.ok t →
      pathEval d "current" "feelslike" = Except.ok fl →
      extract_weather_info d =
        Except.ok (Json.obj
          [("name", n), ("region", r), ("local_time", lt),
           ("temperature", t), ("feels_like", fl)]) := by
  intro d n r lt t fl h1 h2 h3 h4 h5
  rw [extract_weather_info_eq_paths, h1, h2, h3, h4, h5]
  rfl

/-- Witness for C5 at §8's concrete raw mapping: name Athens, region Attica,
localtime "2024-01-01 10:00", temperature 15, feelslike 13. -/
theorem C5_witness :
    extract_weather_info athensRaw =
      Except.ok (Json.obj
        [("name", Json.str "Athens"), ("region", Json.str "Attica"),
         ("local_time", Json.str "2024-01-01 10:00"),
         ("temperature", Json.num 15), ("feels_like", Json.num 13)]) :=
  C5_extract_projects_five_fields athensRaw _ _ _ _ _ rfl rfl rfl rfl rfl

/-- C10: the extractor's output depends only on the five source fields: two
inputs agreeing on those five lookups (however much the rest differs)
extract equally. -/
theorem C10_extract_depends_only_on_five_fields :
    ∀ d1 d2 : Json,
      pathEval d1 "location" "name" = pathEval d2 "location" "name" →
      pathEval d1 "location" "region" = pathEval d2 "location" "region" →
      pathEval d1 "location" "localtime" = pathEval d2 "location" "localtime" →
      pathEval d1 "current" "temperature" = pathEval d2 "current" "temperature" →
      pathEval d1 "current" "feelslike" = pathEval d2 "current" "feelslike" →
      extract_weather_info d1 = extract_weather_info d2 := by
  intro d1 d2 h1 h2 h3 h4 h5
  rw [extract_weather_info_eq_paths, extract_weather_info_eq_paths,
    h1, h2, h3, h4, h5]

/-- Witness for C10: extra keys at top level, inside `location` and inside
`current` do not change the extraction. -/
theorem C10_witness :
    extract_weather_info athensRaw = extract_weather_info athensRawExtra :=
  C10_extract_depends_only_on_five_fields athensRaw athensRawExtra rfl rfl rfl rfl rfl

/-- C1 (counterexample to the claim as stated): a non-2xx status outside
4xx/5xx — here 304 with a decodable body — is not treated as a failed
fetch: `raise_for_status` does not raise below 400, so `search_weather`
returns the decoded body, which is not the empty mapping. -/
theorem C1_counterexample :
    (search_weather (.str "Athens") (some "KEY")
        (fun _ => FetchResult.response ⟨304, "Not Modified", "\x7b\"a\": 1\x7d"⟩)).1 =
      Except.ok (Json.obj [("a", Json.num 1)]) ∧
    Json.obj [("a", Json.num 1)] ≠ Json.obj [] := by
  refine ⟨rfl, fun h => ?_⟩
  injection h with h2
  exact List.cons_ne_nil _ _ h2

/-- C1 (amended): for every failed fetch — a 4xx/5xx status (the statuses
`raise_for_status` raises for) or any exception during the request or JSON
decoding — `search_weather` returns the empty mapping and does not raise,
so such a failure is indistinguishable from an empty result. -/
theorem C1_failed_fetch_returns_empty :
    ∀ (loc : String) (env : Option String) (net : String → FetchResult),
      ((∃ m, net (buildURL loc (load_environment env)) = FetchResult.exn m) ∨
       (∃ r, net (buildURL loc (load_environment env)) = FetchResult.response r ∧
          (isErrorStatus r.statusCode = true ∨ json_loads r.body = none))) →
      (search_weather (.str loc) env net).1 = Except.ok (Json.obj []) := by
  intro loc env net h
  simp only [search_weather]
  rcases h with ⟨m, hm⟩ | ⟨r, hr, hcase⟩
  · rw [hm]
  · rw [hr]
    by_cases hs : isErrorStatus r.statusCode
    · simp [hs]
    · rcases hcase with hstat | hj
      · exact absurd hstat (by simpa using hs)
      · simp [hs, hj]

/-- Witness for C1 at a concrete transport exception. -/
theorem C1_witness :
    (search_weather (.str "Athens") none (fun _ => FetchResult.exn "boom")).1 =
      Except.ok (Json.obj []) :=
  C1_failed_fetch_returns_empty "Athens" none (fun _ => FetchResult.exn "boom")
    (Or.inl ⟨"boom", rfl⟩)

/-- C8 (counterexample to the claim as stated): on a concrete failing fetch
the diagnostic goes through `print`, i.e. to standard output — nothing is
written to standard error. -/
theorem C8_counterexample :
    writesTo .stderr (search_weather (.str "Athens") (some "K")
        (fun _ => FetchResult.exn "connection error")).2 = [] ∧
    writesTo .stdout (search_weather (.str "Athens") (some "K")
        (fun _ => FetchResult.exn "connection error")).2 =
      ["Other error occurred: connection error"] :=
  ⟨rfl, rfl⟩

/-- C8 (amended): on every HTTP error or other exception during the fetch,
the diagnostic message is written to standard output (Python `print`), and
nothing is written to standard error. -/
theorem C8_diagnostic_to_stdout :
    ∀ (loc : String) (env : Option String) (net : String → FetchResult),
      ((∃ m, net (buildURL loc (load_environment env)) = FetchResult.exn m) ∨
       (∃ r, net (buildURL loc (load_environment env)) = FetchResult.response r ∧
          (isErrorStatus r.statusCode = true ∨ json_loads r.body = none))) →
      writesTo .stderr (search_weather (.str loc) env net).2 = [] ∧
      ∃ m, writesTo .stdout (search_weather (.str loc) env net).2 = [m] := by
  intro loc env net h
  simp only [search_weather]
  rcases h with ⟨m, hm⟩ | ⟨r, hr, hcase⟩
  · rw [hm]
    exact ⟨rfl, ⟨_, rfl⟩⟩
  · rw [hr]
    by_cases hs : isErrorStatus r.statusCode
    · simp only [hs, if_true]
      exact ⟨rfl, ⟨_, rfl⟩⟩
    · rcases hcase with hstat | hj
      · exact absurd hstat (by simpa using hs)
      · simp only [Bool.not_eq_true] at hs
        simp only [hs, Bool.false_eq_true, if_false, hj]
        exact ⟨rfl, ⟨_, rfl⟩⟩

/-- Witness for C8 at a concrete HTTP 500 response. -/
theorem C8_witness :
    writesTo .stderr (search_weather (.str "Paris") none
        (fun _ => FetchResult.response ⟨500, "Internal Server Error", ""⟩)).2 = [] ∧
    ∃ m, writesTo .stdout (search_weather (.str "Paris") none
        (fun _ => FetchResult.response ⟨500, "Internal Server Error", ""⟩)).2 = [m] :=
  C8_diagnostic_to_stdout "Paris" none
    (fun _ => FetchResult.response ⟨500, "Internal Server Error", ""⟩)
    (Or.inr ⟨⟨500, "Internal Server Error", ""⟩, rfl, Or.inl rfl⟩)

/-- C4: a 2xx response whose body decodes passes the decoded mapping through
unchanged — the result is exactly `json.loads(body)` and the only event is
the one request. -/
theorem C4_success_returns_decoded_body :
    ∀ (loc : String) (env : Option String) (net : String → FetchResult)
      (r : HttpResponse) (v : Json),
      net (buildURL loc (load_environment env)) = FetchResult.response r →
      200 ≤ r.statusCode → r.statusCode < 300 →
      json_loads r.body = some v →
      search_weather (.str loc) env net =
        (Except.ok v, [Event.netCall (buildURL loc (load_environment env))]) := by
  intro loc env net r v hn h2 h3 hj
  have hs : isErrorStatus r.statusCode = false := by
    unfold isErrorStatus
    simp only [Bool.and_eq_false_iff, decide_eq_false_iff_not]
    omega
  simp [search_weather, hn, hs, hj]

/-- Witness for C4: a 200 response with body decoding to the empty object. -/
theorem C4_witness :
    search_weather (.str "Athens") (some "KEY")
        (fun _ => FetchResult.response ⟨200, "OK", "\x7b\x7d"⟩) =
      (Except.ok (Json.obj []),
       [Event.netCall (buildURL "Athens" (load_environment (some "KEY")))]) :=
  C4_success_returns_decoded_body "Athens" (some "KEY")
    (fun _ => FetchResult.response ⟨200, "OK", "\x7b\x7d"⟩)
    ⟨200, "OK", "\x7b\x7d"⟩ (Json.obj []) rfl (by decide) (by decide) rfl

set_option maxRecDepth 16000 in
/-- C6: with the fetch returning §8's mocked raw mapping, the second text
the script prints (after the formatted raw response) is exactly the fixed
sentence. -/
theorem C6_script_prints_sentence :
    ∀ env : Option String,
      (writesTo .stdout (script env mockedNet).2).get? 1 =
        some "The temperature in Athens is 20 degrees Celcius and feels like 19 degrees." := by
  intro env
  rfl

end GetWeather
